import Mathlib

/-!
Shallow embedding of the `create-vite-starter` scaffolding CLI
(`src/index.ts`) and verification of its specification.

The CLI's pipeline is: resolve the target directory, abort on a
directory conflict, copy the bundled template with a filename filter,
rewrite the staged `git-ignore.txt` into `.gitignore`, optionally inject
the React Router add-on (copying `addons/routes` and overwriting
`src/App.tsx`), optionally run `git init` and the package-manager
install commands, and finally print a next-steps block.

Effectful TypeScript is modelled by explicit inputs (a `World` record
holding the CLI argument, prompt answers, environment hint, lockfile
probe results, template tree and failure flags) and explicit outputs
(an exit code, an ordered list of write/exec events, the materialized
file tree, warnings and the next-steps lines).
-/

/-- The `PackageManager` union type from `src/index.ts`. -/
inductive PackageManager where
  | npm
  | yarn
  | pnpm
  | bun
deriving DecidableEq, Repr

/-- The literal string of a package manager, as interpolated into commands. -/
def pmName : PackageManager → String
  | .npm => "npm"
  | .yarn => "yarn"
  | .pnpm => "pnpm"
  | .bun => "bun"

/-- JavaScript `String.prototype.includes`: `t` occurs as a contiguous
substring of `s`. -/
def containsSub (s t : String) : Bool :=
  (List.range (s.length + 1)).any fun i => List.isPrefixOf t.data (s.data.drop i)

/-- `detectPackageManager` from `src/index.ts` lines 18-34.
`userAgent` models `process.env.npm_config_user_agent` (`none` when the
variable is unset); `probe` models `fs.pathExists` on the current working
directory, where `.error ()` is a thrown I/O error (the whole probe block
is wrapped in a `try` whose `catch` returns `"npm"`). -/
def detectPackageManager (userAgent : Option String)
    (probe : String → Except Unit Bool) : PackageManager :=
  let ua := userAgent.getD ""
  if containsSub ua "pnpm" then .pnpm
  else if containsSub ua "yarn" then .yarn
  else if containsSub ua "bun" then .bun
  else
    match probe "pnpm-lock.yaml" with
    | .error _ => .npm
    | .ok true => .pnpm
    | .ok false =>
      match probe "yarn.lock" with
      | .error _ => .npm
      | .ok true => .yarn
      | .ok false =>
        match probe "bun.lock" with
        | .error _ => .npm
        | .ok true => .bun
        | .ok false => .npm

/-- Split a character list on a separator character. -/
def splitChar (sep : Char) : List Char → List (List Char)
  | [] => [[]]
  | c :: cs =>
    let r := splitChar sep cs
    if c = sep then [] :: r
    else
      match r with
      | [] => [[c]]
      | x :: xs => (c :: x) :: xs

/-- The `/`-separated components of a path string. -/
def pathComponents (p : String) : List String :=
  (splitChar (Char.ofNat 47) p.data).map String.mk

/-- JavaScript / Node string suffix test, over the character lists. -/
def strEndsWith (s t : String) : Bool :=
  List.isSuffixOf t.data s.data

/-- Whether a path string starts with `/`, i.e. is absolute. -/
def isAbsolute (p : String) : Bool :=
  List.isPrefixOf [Char.ofNat 47] p.data

/-- Join strings with a separator. -/
def joinWith (sep : String) : List String → String
  | [] => ""
  | [x] => x
  | x :: xs => x ++ sep ++ joinWith sep xs

/-- Node's `path.basename`: the final `/`-separated component. -/
def basename (p : String) : String :=
  ((pathComponents p).getLast?).getD p

/-- The copy filter passed to `fs.copy` in `src/index.ts` lines 91-101:
keep a path exactly when its basename is not `node_modules` and does not
end with `lock.json`, `.lock` or `.yaml`. -/
def copyFilter (src : String) : Bool :=
  let filename := basename src
  decide (filename ≠ "node_modules") &&
    !(strEndsWith filename "lock.json") &&
    !(strEndsWith filename ".lock") &&
    !(strEndsWith filename ".yaml")

/-- A path relative to the target root, as a list of components. -/
abbrev RelPath := List String

/-- A materialized directory tree: an association of relative paths to
file contents. -/
abbrev FsTree := List (RelPath × String)

/-- A node of the bundled template tree. -/
inductive Entry where
  | file (name : String) (content : String)
  | dir (name : String) (entries : List Entry)

mutual

/-- `fs.copy` of one template entry under the filter: a filtered-out file
is skipped, a filtered-out directory is pruned with its whole subtree. -/
def copyEntry (f : String → Bool) : Entry → FsTree
  | .file n c => if f n then [([n], c)] else []
  | .dir n es => if f n then (copyEntries f es).map (fun e => (n :: e.1, e.2)) else []

/-- `fs.copy` of a list of template entries under the filter. -/
def copyEntries (f : String → Bool) : List Entry → FsTree
  | [] => []
  | e :: es => copyEntry f e ++ copyEntries f es

end

/-- Look up the content of a file at a relative path. -/
def lookupTree (p : RelPath) (t : FsTree) : Option String :=
  (t.find? (fun e => e.1 = p)).map (·.2)

/-- `fs.writeFile`: create or overwrite the file at `p` with content `c`. -/
def insertTree (p : RelPath) (c : String) (t : FsTree) : FsTree :=
  (p, c) :: t.filter (fun e => ¬ (e.1 = p))

/-- `fs.remove`: delete the file at `p`. -/
def removeTree (p : RelPath) (t : FsTree) : FsTree :=
  t.filter (fun e => ¬ (e.1 = p))

/-- The `git-ignore.txt` fixup of `src/index.ts` lines 104-114: if the
staged file exists at the target root, its content is written verbatim to
`.gitignore` and the staged file is removed; otherwise nothing happens. -/
def gitignoreFixup (t : FsTree) : FsTree :=
  match lookupTree ["git-ignore.txt"] t with
  | some c => removeTree ["git-ignore.txt"] (insertTree [".gitignore"] c t)
  | none => t

/-- The fixed replacement body written to `src/App.tsx` when the router
add-on is injected (`src/index.ts` lines 127-133). -/
def newAppContent : String :=
  "import \x7b AppRouter \x7d from \x27./routes\x27;\n\nfunction App() \x7b\n  return <AppRouter />;\n\x7d\n\nexport default App;"

/-- `fs.copy` of the add-on subtree into `src/routes`, with no filter. -/
def injectAddon (addon : FsTree) (t : FsTree) : FsTree :=
  addon.foldl (fun acc e => insertTree (["src", "routes"] ++ e.1) e.2 acc) t

/-- The warning logged when the add-on source subtree is missing. -/
def routerWarning : String := "Router template not found in addons/routes"

/-- The React Router step of `src/index.ts` lines 117-139: when selected
and the add-on source exists, copy the subtree into `src/routes` and
overwrite `src/App.tsx`; when selected but absent, only warn; when not
selected, do nothing. Returns the updated tree and the warnings. -/
def routerStep (useRouter addonPresent : Bool) (addon : FsTree) (t : FsTree) :
    FsTree × List String :=
  if useRouter then
    if addonPresent then
      (insertTree ["src", "App.tsx"] newAppContent (injectAddon addon t), [])
    else (t, [routerWarning])
  else (t, [])

/-- The dependency-install command sequence of `src/index.ts` lines
164-186: each pair is (working directory, command words). The base
command uses `add` for yarn and `install` otherwise; with the add-on
selected, a production add of `react-router` and a dev add of
`@types/react-router` follow, all with `cwd` set to the target. -/
def installPlan (pm : PackageManager) (useRouter : Bool) (td : String) :
    List (String × List String) :=
  let base := (td, [pmName pm, if pm = .yarn then "add" else "install"])
  if useRouter then
    base ::
      (match pm with
       | .yarn =>
         [(td, ["yarn", "add", "react-router"]),
          (td, ["yarn", "add", "-D", "@types/react-router"])]
       | .pnpm =>
         [(td, ["pnpm", "add", "react-router"]),
          (td, ["pnpm", "add", "-D", "@types/react-router"])]
       | .bun =>
         [(td, ["bun", "add", "react-router"]),
          (td, ["bun", "add", "-d", "@types/react-router"])]
       | .npm =>
         [(td, ["npm", "install", "react-router"]),
          (td, ["npm", "install", "--save-dev", "@types/react-router"])])
  else [base]

/-- Path normalization: fold the components of an absolute path, dropping
empty and `.` components and resolving `..` against the accumulated stack
(at the root, `..` is dropped). -/
def normAcc (acc : List String) : List String → List String
  | [] => acc.reverse
  | c :: cs =>
    if c = "" ∨ c = "." then normAcc acc cs
    else if c = ".." then
      match acc with
      | [] => normAcc [] cs
      | _ :: acc' => normAcc acc' cs
    else normAcc (c :: acc) cs

/-- Node's `path.resolve(p)` with the process working directory `cwd`: an
absolute `p` is normalized as is, a relative `p` is appended to `cwd`
first; the result always starts with `/`. -/
def resolvePath (cwd p : String) : String :=
  let full := if isAbsolute p then p else cwd ++ "/" ++ p
  "/" ++ joinWith "/" (normAcc [] (pathComponents full))

/-- Drop the longest common prefix of two component lists. -/
def dropCommon : List String → List String → List String × List String
  | a :: as, b :: bs => if a = b then dropCommon as bs else (a :: as, b :: bs)
  | as, bs => (as, bs)

/-- Node's `path.relative(f, t)` for already-absolute arguments: strip the
common prefix, go up with `..` for what remains of `f`, then down into
what remains of `t`. Two equal paths give the empty string. -/
def relativePath (f t : String) : String :=
  let r := dropCommon (normAcc [] (pathComponents f)) (normAcc [] (pathComponents t))
  joinWith "/" (r.1.map (fun _ => "..") ++ r.2)

/-- The next-steps block of `src/index.ts` lines 199-213, as the list of
`consola.info` lines after the leading `Next steps:` header. -/
def nextSteps (td cwd : String) (pm : PackageManager)
    (shouldInstall useRouter : Bool) : List String :=
  (if td ≠ "." then ["  cd " ++ relativePath cwd td] else [])
    ++ (if !shouldInstall then
          ("  " ++ pmName pm ++ " install")
            :: (if useRouter then
                  ["  " ++ pmName pm ++ " "
                     ++ (if pm = .yarn then "add" else "install") ++ " react-router",
                   "  " ++ pmName pm ++ " "
                     ++ (if pm = .yarn then "add -D"
                         else if pm = .bun then "add -d"
                         else "install --save-dev") ++ " @types/react-router"]
                else [])
        else if pm = .pnpm then
          ["  pnpm approve-builds  # Required for Tailwind and ESLint"]
        else [])
    ++ ["  " ++ pmName pm ++ " run dev\n"]

/-- An observable side effect of the run, in order of occurrence. -/
inductive Event where
  | ensureDir (path : String)
  | copyTemplate (dest : String)
  | writeFile (path : String) (content : String)
  | removeFile (path : String)
  | exec (cwd : String) (cmd : List String)
deriving DecidableEq, Repr

/-- All external inputs of one run of `main`: the CLI argument
(`process.argv[2]`), the target prompt answer (`none` models the
cancellation symbol), the working directory, the three confirm answers,
the detection inputs, the template and add-on trees, and the failure
behavior of the fallible steps (`copyOk` for the `try` block around the
template copy, `gitOk` for `git init`, `installFailAt` for the index of
the first failing install command, if any). -/
structure World where
  argv2 : Option String
  promptTarget : Option String
  cwd : String
  targetExists : Bool
  targetListing : List String
  shouldGitInit : Bool
  shouldInstall : Bool
  useReactRouter : Bool
  userAgent : Option String
  probe : String → Except Unit Bool
  template : List Entry
  copyOk : Bool
  addonPresent : Bool
  addonTree : FsTree
  gitOk : Bool
  installFailAt : Option Nat

/-- The observable outcome of one run of `main`. -/
structure RunResult where
  exitCode : Nat
  events : List Event
  tree : Option FsTree
  warnings : List String
  nextStepLines : List String

/-- Target-directory acquisition (`src/index.ts` lines 41-49): the CLI
argument if non-empty, otherwise the prompt answer; `none` when the run
exits with code 1 because the prompt was cancelled or answered with the
empty string. -/
def targetInput (w : World) : Option String :=
  let a := w.argv2.getD ""
  if a = "" then
    match w.promptTarget with
    | none => none
    | some r => if r = "" then none else some r
  else some a

/-- The install commands actually attempted: all of them, or everything
up to and including the first failing one (the `catch` abandons the
rest). -/
def executedCmds (cmds : List (String × List String)) :
    Option Nat → List (String × List String)
  | none => cmds
  | some i => cmds.take (i + 1)

/-- A run terminated by `process.exit(1)` before any effect. -/
def abortResult : RunResult :=
  { exitCode := 1, events := [], tree := none, warnings := [], nextStepLines := [] }

/-- The whole of `main` from `src/index.ts` lines 36-214, as a function
from the run's external inputs to its observable outcome. The three
`process.exit(1)` sites (cancelled input, directory conflict, template
copy failure) are the only paths with exit code 1; git and install
failures are caught in place and the run ends with exit code 0. -/
def mainRun (w : World) : RunResult :=
  match targetInput w with
  | none => abortResult
  | some t0 =>
    let td := resolvePath w.cwd t0
    if w.targetExists ∧ w.targetListing ≠ [] then abortResult
    else
      let pm := detectPackageManager w.userAgent w.probe
      if ¬ w.copyOk then
        { exitCode := 1, events := [.ensureDir td, .copyTemplate td],
          tree := none, warnings := [], nextStepLines := [] }
      else
        let t1 := copyEntries copyFilter w.template
        let fixEvents :=
          match lookupTree ["git-ignore.txt"] t1 with
          | some c => [Event.writeFile (td ++ "/.gitignore") c,
                       Event.removeFile (td ++ "/git-ignore.txt")]
          | none => []
        let t2 := gitignoreFixup t1
        let router := routerStep w.useReactRouter w.addonPresent w.addonTree t2
        let routerEvents :=
          if w.useReactRouter then
            if w.addonPresent then
              [Event.copyTemplate (td ++ "/src/routes"),
               Event.writeFile (td ++ "/src/App.tsx") newAppContent]
            else []
          else []
        let gitEvents :=
          if w.shouldGitInit then [Event.exec w.cwd ["git", "init", td]] else []
        let installEvents :=
          if w.shouldInstall then
            (executedCmds (installPlan pm w.useReactRouter td) w.installFailAt).map
              (fun c => Event.exec c.1 c.2)
          else []
        { exitCode := 0,
          events := [.ensureDir td, .copyTemplate td]
            ++ fixEvents ++ routerEvents ++ gitEvents ++ installEvents,
          tree := some router.1,
          warnings := router.2,
          nextStepLines := nextSteps td w.cwd pm w.shouldInstall w.useReactRouter }

/-- A sample world: `my-project` given on the command line, fresh target,
all options selected, pnpm-free environment, a small template with an
entry point and a staged ignore file, and an add-on with one file. -/
def baseWorld : World :=
  { argv2 := some "my-project", promptTarget := none, cwd := "/home/user",
    targetExists := false, targetListing := [],
    shouldGitInit := true, shouldInstall := true, useReactRouter := true,
    userAgent := none, probe := fun _ => .ok false,
    template := [.dir "src" [.file "App.tsx" "function App() \x7b return null; \x7d"],
                 .file "git-ignore.txt" "node_modules\n",
                 .file "package-lock.json" "lockfile"],
    copyOk := true, addonPresent := true,
    addonTree := [(["index.ts"], "export const AppRouter = null;")],
    gitOk := true, installFailAt := none }

theorem find_filter_ne (p q : RelPath) (h : p ≠ q) (t : FsTree) :
    List.find? (fun a => !decide (a.1 = q) && decide (a.1 = p)) t
      = List.find? (fun e => decide (e.1 = p)) t := by
  have hp : (fun a : RelPath × String => !decide (a.1 = q) && decide (a.1 = p))
      = fun e => decide (e.1 = p) := by
    funext a
    by_cases hap : a.1 = p
    · simp [hap, h]
    · simp [hap]
  rw [hp]

theorem lookupTree_insertTree (p q : RelPath) (c : String) (t : FsTree) :
    lookupTree p (insertTree q c t) = if p = q then some c else lookupTree p t := by
  unfold lookupTree insertTree
  by_cases h : p = q
  · subst h
    simp [List.find?]
  · have h' : ¬ q = p := fun hh => h hh.symm
    simp [List.find?, h, h', find_filter_ne p q h]

theorem lookupTree_removeTree (p q : RelPath) (t : FsTree) :
    lookupTree p (removeTree q t) = if p = q then none else lookupTree p t := by
  unfold lookupTree removeTree
  by_cases h : p = q
  · subst h
    have hp : (fun a : RelPath × String => !decide (a.1 = p) && decide (a.1 = p))
        = fun _ => false := by
      funext a
      by_cases hap : a.1 = p <;> simp [hap]
    simp [hp]
  · simp [h, find_filter_ne p q h]

theorem lookupTree_gitignoreFixup_other (p : RelPath) (t : FsTree)
    (h1 : p ≠ [".gitignore"]) (h2 : p ≠ ["git-ignore.txt"]) :
    lookupTree p (gitignoreFixup t) = lookupTree p t := by
  unfold gitignoreFixup
  cases h : lookupTree ["git-ignore.txt"] t with
  | none => rfl
  | some c => simp [lookupTree_removeTree, lookupTree_insertTree, h1, h2]

/-- Claim C6: for every content string, if the materialized target root
holds a staged `git-ignore.txt` with that content, the post-copy fixup
leaves a `.gitignore` with exactly that content and no `git-ignore.txt`;
with no staged file the fixup writes nothing at all. -/
theorem gitignoreFixup_spec (t : FsTree) (c : String) :
    (lookupTree ["git-ignore.txt"] t = some c →
       lookupTree [".gitignore"] (gitignoreFixup t) = some c ∧
       lookupTree ["git-ignore.txt"] (gitignoreFixup t) = none)
    ∧ (lookupTree ["git-ignore.txt"] t = none → gitignoreFixup t = t) := by
  constructor
  · intro h
    unfold gitignoreFixup
    rw [h]
    constructor
    · rw [lookupTree_removeTree, lookupTree_insertTree]
      simp
    · rw [lookupTree_removeTree]
      simp
  · intro h
    unfold gitignoreFixup
    rw [h]

/-- Claim C7: the copy filter is a pure predicate of the path that is
false exactly when the basename equals `node_modules` or ends with
`lock.json`, `.lock` or `.yaml`; in particular it rejects the four
lockfile names and keeps `package.json`. -/
theorem copyFilter_spec :
    (∀ p : String, copyFilter p = false ↔
       (basename p = "node_modules" ∨ strEndsWith (basename p) "lock.json" = true ∨
        strEndsWith (basename p) ".lock" = true ∨ strEndsWith (basename p) ".yaml" = true))
    ∧ copyFilter "package-lock.json" = false
    ∧ copyFilter "yarn.lock" = false
    ∧ copyFilter "pnpm-lock.yaml" = false
    ∧ copyFilter "bun.lock" = false
    ∧ copyFilter "package.json" = true := by
  refine ⟨fun p => ?_, by rfl, by rfl, by rfl, by rfl, by rfl⟩
  unfold copyFilter
  by_cases h1 : basename p = "node_modules" <;>
    by_cases h2 : strEndsWith (basename p) "lock.json" = true <;>
      by_cases h3 : strEndsWith (basename p) ".lock" = true <;>
        by_cases h4 : strEndsWith (basename p) ".yaml" = true <;>
          simp [h1, h2, h3, h4]

/-- Claim C4: the install plan's base command is `install` for npm, pnpm
and bun and `add` for yarn; with the add-on selected exactly two further
commands follow — a production add of `react-router` and a dev add of
`@types/react-router` with the manager's dev flag (`-D` yarn/pnpm, `-d`
bun, `--save-dev` npm) — each with its working directory set to the
target root. -/
theorem installPlan_spec (td : String) :
    (∀ pm, installPlan pm false td
       = [(td, [pmName pm, if pm = .yarn then "add" else "install"])])
    ∧ installPlan .npm true td
       = [(td, ["npm", "install"]),
          (td, ["npm", "install", "react-router"]),
          (td, ["npm", "install", "--save-dev", "@types/react-router"])]
    ∧ installPlan .yarn true td
       = [(td, ["yarn", "add"]),
          (td, ["yarn", "add", "react-router"]),
          (td, ["yarn", "add", "-D", "@types/react-router"])]
    ∧ installPlan .pnpm true td
       = [(td, ["pnpm", "install"]),
          (td, ["pnpm", "add", "react-router"]),
          (td, ["pnpm", "add", "-D", "@types/react-router"])]
    ∧ installPlan .bun true td
       = [(td, ["bun", "install"]),
          (td, ["bun", "add", "react-router"]),
          (td, ["bun", "add", "-d", "@types/react-router"])] := by
  refine ⟨fun pm => ?_, by rfl, by rfl, by rfl, by rfl⟩
  cases pm <;> rfl

/-- Claim C3: detection priority — the first hint substring among
`pnpm`, `yarn`, `bun` wins over any lockfile state; without a hint match
the first lockfile present in the order `pnpm-lock.yaml`, `yarn.lock`,
`bun.lock` decides, and with none present the result is npm. With a
`pnpm` hint and a `yarn.lock` present, detection returns pnpm; probing
with exactly one manager's lockfile yields that manager. -/
theorem detect_priority (ua : String) (probe : String → Except Unit Bool) :
    (containsSub ua "pnpm" = true → detectPackageManager (some ua) probe = .pnpm)
    ∧ (containsSub ua "pnpm" = false → containsSub ua "yarn" = true →
         detectPackageManager (some ua) probe = .yarn)
    ∧ (containsSub ua "pnpm" = false → containsSub ua "yarn" = false →
         containsSub ua "bun" = true → detectPackageManager (some ua) probe = .bun)
    ∧ (containsSub ua "pnpm" = false → containsSub ua "yarn" = false →
         containsSub ua "bun" = false → probe "pnpm-lock.yaml" = .ok true →
         detectPackageManager (some ua) probe = .pnpm)
    ∧ (containsSub ua "pnpm" = false → containsSub ua "yarn" = false →
         containsSub ua "bun" = false → probe "pnpm-lock.yaml" = .ok false →
         probe "yarn.lock" = .ok true → detectPackageManager (some ua) probe = .yarn)
    ∧ (containsSub ua "pnpm" = false → containsSub ua "yarn" = false →
         containsSub ua "bun" = false → probe "pnpm-lock.yaml" = .ok false →
         probe "yarn.lock" = .ok false → probe "bun.lock" = .ok true →
         detectPackageManager (some ua) probe = .bun)
    ∧ (containsSub ua "pnpm" = false → containsSub ua "yarn" = false →
         containsSub ua "bun" = false → probe "pnpm-lock.yaml" = .ok false →
         probe "yarn.lock" = .ok false → probe "bun.lock" = .ok false →
         detectPackageManager (some ua) probe = .npm)
    ∧ detectPackageManager (some "pnpm/9.0.0") (fun n => .ok (n = "yarn.lock")) = .pnpm
    ∧ detectPackageManager none (fun n => .ok (n = "pnpm-lock.yaml")) = .pnpm
    ∧ detectPackageManager none (fun n => .ok (n = "yarn.lock")) = .yarn
    ∧ detectPackageManager none (fun n => .ok (n = "bun.lock")) = .bun
    ∧ detectPackageManager none (fun n => .ok (n = "package-lock.json")) = .npm := by
  refine ⟨?_, ?_, ?_, ?_, ?_, ?_, ?_, by decide, by decide, by decide, by decide, by decide⟩
  · intro h1
    simp [detectPackageManager, h1]
  · intro h1 h2
    simp [detectPackageManager, h1, h2]
  · intro h1 h2 h3
    simp [detectPackageManager, h1, h2, h3]
  · intro h1 h2 h3 hp
    simp [detectPackageManager, h1, h2, h3, hp]
  · intro h1 h2 h3 hp hy
    simp [detectPackageManager, h1, h2, h3, hp, hy]
  · intro h1 h2 h3 hp hy hb
    simp [detectPackageManager, h1, h2, h3, hp, hy, hb]
  · intro h1 h2 h3 hp hy hb
    simp [detectPackageManager, h1, h2, h3, hp, hy, hb]

/-- Claim C8: `detectPackageManager` never fails — for every environment
and probe behavior it returns one of npm, yarn, pnpm, bun, and whenever
the probe sequence that actually runs hits an I/O error it falls back to
npm. -/
theorem detect_total_and_fallback (userAgent : Option String)
    (probe : String → Except Unit Bool) :
    (detectPackageManager userAgent probe = .npm
      ∨ detectPackageManager userAgent probe = .yarn
      ∨ detectPackageManager userAgent probe = .pnpm
      ∨ detectPackageManager userAgent probe = .bun)
    ∧ (containsSub (userAgent.getD "") "pnpm" = false →
       containsSub (userAgent.getD "") "yarn" = false →
       containsSub (userAgent.getD "") "bun" = false →
       (probe "pnpm-lock.yaml" = .error ()
         ∨ (probe "pnpm-lock.yaml" = .ok false ∧ probe "yarn.lock" = .error ())
         ∨ (probe "pnpm-lock.yaml" = .ok false ∧ probe "yarn.lock" = .ok false
              ∧ probe "bun.lock" = .error ())) →
       detectPackageManager userAgent probe = .npm) := by
  constructor
  · cases h : detectPackageManager userAgent probe <;> simp
  · intro h1 h2 h3 herr
    rcases herr with hp | ⟨hp, hy⟩ | ⟨hp, hy, hb⟩
    · simp [detectPackageManager, h1, h2, h3, hp]
    · simp [detectPackageManager, h1, h2, h3, hp, hy]
    · simp [detectPackageManager, h1, h2, h3, hp, hy, hb]

/-- Claim C9: a user agent identifying npm is never matched by the hint
step, since only the substrings `pnpm`, `yarn`, `bun` are checked; with
an npm user agent and `pnpm-lock.yaml` present in the working directory,
detection returns pnpm — the lockfile probe overrides the npm hint. -/
theorem npm_hint_overridden (ua : String) (probe : String → Except Unit Bool)
    (h1 : containsSub ua "pnpm" = false) (h2 : containsSub ua "yarn" = false)
    (h3 : containsSub ua "bun" = false)
    (hp : probe "pnpm-lock.yaml" = .ok true) :
    detectPackageManager (some ua) probe = .pnpm
    ∧ detectPackageManager (some "npm/10.9.2 node/v22.12.0 linux x64")
        (fun n => .ok (n = "pnpm-lock.yaml")) = .pnpm := by
  constructor
  · simp [detectPackageManager, h1, h2, h3, hp]
  · decide

theorem lookupTree_foldInsert_not_mem (pre : RelPath) (l : FsTree) :
    ∀ (t : FsTree) (p : RelPath), p ∉ l.map Prod.fst →
      lookupTree (pre ++ p) (l.foldl (fun acc e => insertTree (pre ++ e.1) e.2 acc) t)
        = lookupTree (pre ++ p) t := by
  induction l with
  | nil => intro t p _; rfl
  | cons e es ih =>
    intro t p hq
    simp only [List.map, List.mem_cons, not_or] at hq
    rw [List.foldl_cons, ih _ _ hq.2, lookupTree_insertTree]
    have : ¬ (pre ++ p = pre ++ e.1) := fun hc =>
      hq.1 (List.append_cancel_left hc)
    simp [this]

theorem lookupTree_foldInsert_mem (pre : RelPath) (l : FsTree) :
    ∀ (t : FsTree) (p : RelPath) (c : String), (l.map Prod.fst).Nodup → (p, c) ∈ l →
      lookupTree (pre ++ p) (l.foldl (fun acc e => insertTree (pre ++ e.1) e.2 acc) t)
        = some c := by
  induction l with
  | nil => intro t p c _ hm; cases hm
  | cons e es ih =>
    intro t p c hnd hm
    have hnd' := hnd
    simp only [List.map, List.nodup_cons] at hnd'
    rcases List.mem_cons.mp hm with he | hes
    · subst he
      rw [List.foldl_cons,
          lookupTree_foldInsert_not_mem pre es _ _ hnd'.1,
          lookupTree_insertTree]
      simp
    · exact ih _ _ _ hnd'.2 hes

/-- Claim C5: with the add-on not selected, `src/App.tsx` in the target
is exactly the file copied from the base template; with the add-on
selected and its source subtree present, the subtree is copied unfiltered
under `src/routes` and `src/App.tsx` is fully replaced by the fixed body
referencing the add-on's router component; with the source subtree
absent, a non-fatal warning is recorded and `src/App.tsx` stays as
copied. -/
theorem addon_injection (w : World) (t0 : String)
    (h0 : targetInput w = some t0)
    (h1 : ¬ (w.targetExists ∧ w.targetListing ≠ []))
    (h2 : w.copyOk = true) :
    (w.useReactRouter = false →
       ∃ T, (mainRun w).tree = some T ∧
         lookupTree ["src", "App.tsx"] T
           = lookupTree ["src", "App.tsx"] (copyEntries copyFilter w.template) ∧
         (mainRun w).warnings = [])
    ∧ (w.useReactRouter = true → w.addonPresent = true →
       ∃ T, (mainRun w).tree = some T ∧
         lookupTree ["src", "App.tsx"] T = some newAppContent ∧
         (mainRun w).warnings = [] ∧
         ((w.addonTree.map Prod.fst).Nodup →
            ∀ p c, (p, c) ∈ w.addonTree →
              lookupTree (["src", "routes"] ++ p) T = some c))
    ∧ (w.useReactRouter = true → w.addonPresent = false →
       ∃ T, (mainRun w).tree = some T ∧
         lookupTree ["src", "App.tsx"] T
           = lookupTree ["src", "App.tsx"] (copyEntries copyFilter w.template) ∧
         (mainRun w).warnings = [routerWarning]) := by
  have htree : (mainRun w).tree
      = some (routerStep w.useReactRouter w.addonPresent w.addonTree
          (gitignoreFixup (copyEntries copyFilter w.template))).1 := by
    simp [mainRun, h0, h1, h2]
  have hwarn : (mainRun w).warnings
      = (routerStep w.useReactRouter w.addonPresent w.addonTree
          (gitignoreFixup (copyEntries copyFilter w.template))).2 := by
    simp [mainRun, h0, h1, h2]
  have happ : lookupTree ["src", "App.tsx"]
        (gitignoreFixup (copyEntries copyFilter w.template))
      = lookupTree ["src", "App.tsx"] (copyEntries copyFilter w.template) :=
    lookupTree_gitignoreFixup_other _ _ (by decide) (by decide)
  refine ⟨?_, ?_, ?_⟩
  · intro hr
    refine ⟨_, htree, ?_, ?_⟩
    · rw [hr]
      simp [routerStep, happ]
    · rw [hwarn, hr]
      simp [routerStep]
  · intro hr ha
    refine ⟨_, htree, ?_, ?_, ?_⟩
    · rw [hr, ha]
      simp [routerStep, lookupTree_insertTree]
    · rw [hwarn, hr, ha]
      simp [routerStep]
    · intro hnd p c hm
      rw [hr, ha]
      have hne : ¬ (["src", "routes"] ++ p = ["src", "App.tsx"]) := by
        intro hc
        injection hc with a b
        injection b with c' d
        exact absurd c' (by decide)
      simp only [routerStep, injectAddon, ite_true, lookupTree_insertTree, if_neg hne]
      exact lookupTree_foldInsert_mem ["src", "routes"] w.addonTree
        (gitignoreFixup (copyEntries copyFilter w.template)) p c hnd hm
  · intro hr ha
    refine ⟨_, htree, ?_, ?_⟩
    · rw [hr, ha]
      simp [routerStep, happ]
    · rw [hwarn, hr, ha]
      simp [routerStep]

theorem slash_append_ne_dot (s : String) : ("/" ++ s) ≠ "." := by
  intro h
  have hd := congrArg String.data h
  simp [String.data_append] at hd

theorem resolvePath_ne_dot (cwd p : String) : resolvePath cwd p ≠ "." := by
  unfold resolvePath
  exact slash_append_ne_dot _

theorem dropCommon_self (l : List String) : dropCommon l l = ([], []) := by
  induction l with
  | nil => rfl
  | cons a as ih => simp [dropCommon, ih]

theorem relativePath_self (s : String) : relativePath s s = "" := by
  unfold relativePath
  rw [dropCommon_self]
  rfl

theorem mainRun_exit_formula (w : World) :
    (mainRun w).exitCode =
      if targetInput w = none then 1
      else if w.targetExists ∧ w.targetListing ≠ [] then 1
      else if w.copyOk then 0 else 1 := by
  cases h : targetInput w with
  | none => simp [mainRun, h, abortResult]
  | some t0 =>
    by_cases hc : w.targetExists ∧ w.targetListing ≠ []
    · simp [mainRun, h, hc, abortResult]
    · by_cases hk : w.copyOk = true
      · simp [mainRun, h, hc, hk]
      · simp [mainRun, h, hc, hk]

/-- Claim C1: if the target directory exists and is non-empty at
validation time, the run aborts with exit code 1 and performs zero
writes; hence a second materialization against the now non-empty target
always aborts with the conflict error and writes nothing. -/
theorem dirConflict_aborts (w : World)
    (h0 : targetInput w ≠ none)
    (h1 : w.targetExists = true) (h2 : w.targetListing ≠ []) :
    (mainRun w).exitCode = 1 ∧ (mainRun w).events = [] := by
  obtain ⟨t0, ht⟩ := Option.ne_none_iff_exists'.mp h0
  have hrun : mainRun w = abortResult := by
    simp [mainRun, ht, h1, h2]
  rw [hrun]
  exact ⟨rfl, rfl⟩

/-- Claim C2: the run exits with code 1 exactly on cancelled input, a
directory conflict, or a template-copy failure; the exit code never
depends on the git-init outcome, on any install-command failure, or on
the add-on source being missing — those later-stage failures are caught
at their own step and the run still completes with exit code 0. -/
theorem exit_code_policy (w : World) :
    ((mainRun w).exitCode =
      if targetInput w = none then 1
      else if w.targetExists ∧ w.targetListing ≠ [] then 1
      else if w.copyOk then 0 else 1)
    ∧ ∀ (g : Bool) (i : Option Nat) (b : Bool),
        (mainRun { w with gitOk := g, installFailAt := i, addonPresent := b }).exitCode
          = (mainRun w).exitCode := by
  refine ⟨mainRun_exit_formula w, fun g i b => ?_⟩
  rw [mainRun_exit_formula, mainRun_exit_formula]
  simp [targetInput]

/-- Claim C10: the target is resolved to an absolute path before the
comparison with `"."`, so the guard of the `cd` line of the next-steps
block is true for every input and the line is always printed; when the
target is the working directory itself the printed relative path is
empty. -/
theorem cd_line_always (w : World) (t0 : String)
    (h0 : targetInput w = some t0)
    (h1 : ¬ (w.targetExists ∧ w.targetListing ≠ []))
    (h2 : w.copyOk = true) :
    (∀ q : String, resolvePath w.cwd q ≠ ".")
    ∧ ("  cd " ++ relativePath w.cwd (resolvePath w.cwd t0)) ∈ (mainRun w).nextStepLines
    ∧ (resolvePath w.cwd t0 = w.cwd →
        ("  cd " : String) ∈ (mainRun w).nextStepLines) := by
  have hsteps : (mainRun w).nextStepLines
      = nextSteps (resolvePath w.cwd t0) w.cwd
          (detectPackageManager w.userAgent w.probe) w.shouldInstall w.useReactRouter := by
    simp [mainRun, h0, h1, h2]
  have hmem : ("  cd " ++ relativePath w.cwd (resolvePath w.cwd t0))
      ∈ (mainRun w).nextStepLines := by
    rw [hsteps]
    unfold nextSteps
    rw [if_pos (resolvePath_ne_dot w.cwd t0)]
    simp
  refine ⟨fun q => resolvePath_ne_dot w.cwd q, hmem, fun he => ?_⟩
  have : ("  cd " : String) = "  cd " ++ relativePath w.cwd (resolvePath w.cwd t0) := by
    rw [he, relativePath_self]
    rfl
  rw [this]
  exact hmem

/-- Witness for C1: a concrete run against an existing non-empty target. -/
theorem dirConflict_aborts_witness :
    (mainRun { baseWorld with
        targetExists := true, targetListing := ["existing.txt"] }).exitCode = 1
    ∧ (mainRun { baseWorld with
        targetExists := true, targetListing := ["existing.txt"] }).events = [] :=
  dirConflict_aborts
    { baseWorld with targetExists := true, targetListing := ["existing.txt"] }
    (by decide) rfl (by decide)

/-- Witness for C3: each hint and lockfile case at a concrete input. -/
theorem detect_priority_witness :
    detectPackageManager (some "pnpm/9.0.0") (fun _ => .ok true) = .pnpm
    ∧ detectPackageManager (some "yarn/1.22.22") (fun _ => .ok false) = .yarn
    ∧ detectPackageManager (some "bun/1.1.0") (fun _ => .ok false) = .bun
    ∧ detectPackageManager (some "npm/10.9.2") (fun _ => .ok false) = .npm :=
  ⟨(detect_priority "pnpm/9.0.0" (fun _ => .ok true)).1 (by decide),
   (detect_priority "yarn/1.22.22" (fun _ => .ok false)).2.1 (by decide) (by decide),
   (detect_priority "bun/1.1.0" (fun _ => .ok false)).2.2.1
     (by decide) (by decide) (by decide),
   (detect_priority "npm/10.9.2" (fun _ => .ok false)).2.2.2.2.2.2.1
     (by decide) (by decide) (by decide) rfl rfl rfl⟩

/-- Witness for C5: the add-on injection on the sample world. -/
theorem addon_injection_witness :
    ∃ T, (mainRun baseWorld).tree = some T ∧
      lookupTree ["src", "App.tsx"] T = some newAppContent ∧
      (mainRun baseWorld).warnings = [] ∧
      ((baseWorld.addonTree.map Prod.fst).Nodup →
        ∀ p c, (p, c) ∈ baseWorld.addonTree →
          lookupTree (["src", "routes"] ++ p) T = some c) :=
  (addon_injection baseWorld "my-project" rfl (by decide) rfl).2.1 rfl rfl

/-- Witness for C6: the fixup on a tree staging `"node_modules\n"`. -/
theorem gitignoreFixup_witness :
    lookupTree [".gitignore"]
        (gitignoreFixup [(["git-ignore.txt"], "node_modules\n")])
      = some "node_modules\n"
    ∧ lookupTree ["git-ignore.txt"]
        (gitignoreFixup [(["git-ignore.txt"], "node_modules\n")]) = none :=
  (gitignoreFixup_spec [(["git-ignore.txt"], "node_modules\n")] "node_modules\n").1 rfl

/-- Witness for C8: a probe that always throws falls back to npm. -/
theorem detect_fallback_witness :
    detectPackageManager none (fun _ => .error ()) = .npm :=
  (detect_total_and_fallback none (fun _ => .error ())).2
    (by decide) (by decide) (by decide) (Or.inl rfl)

/-- Witness for C9: a real npm user agent with a pnpm lockfile present. -/
theorem npm_hint_overridden_witness :
    detectPackageManager (some "npm/10.9.2 node/v22.12.0 linux x64")
        (fun n => .ok (n = "pnpm-lock.yaml")) = .pnpm
    ∧ detectPackageManager (some "npm/10.9.2 node/v22.12.0 linux x64")
        (fun n => .ok (n = "pnpm-lock.yaml")) = .pnpm :=
  npm_hint_overridden "npm/10.9.2 node/v22.12.0 linux x64"
    (fun n => .ok (n = "pnpm-lock.yaml"))
    (by decide) (by decide) (by decide) rfl

/-- Witness for C10: a run targeting the working directory itself. -/
theorem cd_line_witness :
    ("  cd " ++ relativePath "/home/user" (resolvePath "/home/user" "."))
        ∈ (mainRun { baseWorld with argv2 := some "." }).nextStepLines
    ∧ ("  cd " : String)
        ∈ (mainRun { baseWorld with argv2 := some "." }).nextStepLines :=
  ⟨(cd_line_always { baseWorld with argv2 := some "." } "." rfl (by decide) rfl).2.1,
   (cd_line_always { baseWorld with argv2 := some "." } "." rfl (by decide) rfl).2.2 rfl⟩
